import Mathlib

/-!
Verification of the PILOT evaluation utilities.

Shallow embedding of the two source files:
  experiments/sampling/analyze_strict.py  (class BasicMolecularMetrics)
  experiments/docking_utils.py            (split_list)

Conventions of the embedding:
  * Python floats are rationals (ℚ); a torch/numpy NaN is modelled as
    Option.none (torchmetrics MeanMetric.compute on zero weight yields NaN,
    numpy mean of an empty array yields NaN).
  * RDKit and the functions of experiments/sampling/utils.py (absent from
    the sources) are external collaborators; their outputs are fields of a
    per-molecule record (RDMol) or members of an Oracle record of
    uninterpreted functions.  All control flow, arithmetic and state
    updates are translated from analyze_strict.py itself.
  * torchmetrics MeanMetric carries a (weighted sum, total weight) pair;
    MaxMetric carries an optional running maximum (none = -inf initial).
  * Python exceptions that escape a function are an Except error; a
    ZeroDivisionError is PyError.zeroDivision, len(None) is
    PyError.typeError, indexing an empty list is PyError.indexError.
-/

namespace PILOT

/-- Exceptions that the translated Python code can raise. -/
inductive PyError
  | zeroDivision
  | typeError
  | indexError
deriving DecidableEq, Repr

/-- ValueError subclasses that Chem.SanitizeMol can raise and that
compute_validity catches (AtomValenceException, KekulizeException, or any
other ValueError). -/
inductive SanitizeError
  | atomValence
  | kekulize
  | otherValueError
deriving DecidableEq, Repr

/-- Observable RDKit behaviour of one generated molecule's rdkit_mol:
the bond-order adjacency matrix before sanitization, the number of
fragments found by GetMolFrags, the outcome of Chem.SanitizeMol on the
main fragment (none = success), the implicit-hydrogen total and the
adjacency matrix and radical-electron total after sanitization, and the
canonical SMILES produced by MolToSmiles. -/
structure RDMol where
  initialAdj : List (List ℚ)
  numFrags : ℕ
  sanitize : Option SanitizeError
  implicitHs : ℕ
  sanitizedAdj : List (List ℚ)
  radicalElectrons : ℕ
  smiles : String
deriving DecidableEq, Repr

/-- A generated molecule as seen by BasicMolecularMetrics: an optional
rdkit_mol and presence flags for bond_types and charges (their numeric
content is only ever passed to external statistics functions). -/
structure GenMol where
  rdkit_mol : Option RDMol
  bond_types : Option Unit
  charges : Option Unit
deriving DecidableEq, Repr

/-- torchmetrics MeanMetric state: mean_value accumulator and weight. -/
structure MeanMetricState where
  sum : ℚ
  weight : ℚ
deriving DecidableEq, Repr

/-- MeanMetric.update(value, weight): mean_value += value*weight,
weight += weight. -/
def MeanMetricState.update (s : MeanMetricState) (v w : ℚ) : MeanMetricState :=
  ⟨s.sum + v * w, s.weight + w⟩

/-- MeanMetric.update with a 1-D tensor argument and default weight 1:
mean_value += sum(values), weight += number of elements. -/
def MeanMetricState.updateList (s : MeanMetricState) (l : List ℚ) : MeanMetricState :=
  ⟨s.sum + l.sum, s.weight + l.length⟩

/-- MeanMetric.compute(): mean_value / weight, NaN (none) on zero weight. -/
def MeanMetricState.compute (s : MeanMetricState) : Option ℚ :=
  if s.weight = 0 then none else some (s.sum / s.weight)

/-- Freshly constructed (or reset) MeanMetric. -/
def MeanMetricState.init : MeanMetricState := ⟨0, 0⟩

/-- torchmetrics MaxMetric state: running maximum, none before any update. -/
structure MaxMetricState where
  val : Option ℚ
deriving DecidableEq, Repr

/-- MaxMetric.update with a 1-D tensor: fold the maximum. -/
def MaxMetricState.updateList (s : MaxMetricState) (l : List ℚ) : MaxMetricState :=
  ⟨l.foldl (fun acc x =>
      match acc with
      | none => some x
      | some a => some (max a x)) s.val⟩

/-- Freshly constructed (or reset) MaxMetric. -/
def MaxMetricState.init : MaxMetricState := ⟨none⟩

/-- The fifteen metric accumulators owned by a BasicMolecularMetrics
instance (the exact list that BasicMolecularMetrics.reset iterates over). -/
structure MetricsState where
  atom_stable : MeanMetricState
  mol_stable : MeanMetricState
  validity_metric : MeanMetricState
  uniqueness : MeanMetricState
  novelty : MeanMetricState
  mean_components : MeanMetricState
  max_components : MaxMetricState
  num_nodes_w1 : MeanMetricState
  atom_types_tv : MeanMetricState
  edge_types_tv : MeanMetricState
  charge_w1 : MeanMetricState
  valency_w1 : MeanMetricState
  bond_lengths_w1 : MeanMetricState
  angles_w1 : MeanMetricState
  dihedrals_w1 : MeanMetricState
deriving DecidableEq, Repr

/-- State of a freshly constructed BasicMolecularMetrics instance. -/
def initMetricsState : MetricsState :=
  ⟨.init, .init, .init, .init, .init, .init, .init, .init, .init, .init,
   .init, .init, .init, .init, .init⟩

/-- BasicMolecularMetrics.reset: every accumulator returns to its initial
state. -/
def MetricsState.reset (_ : MetricsState) : MetricsState := initMetricsState

/-- The error taxonomy of compute_validity's Counter, including the
"passed" category. -/
inductive ErrCategory
  | disconnected
  | implicit_hydrogens
  | wrong_bo
  | radicals
  | passed
  | wrong_atom_valence
  | kekulization
  | other
deriving DecidableEq, Repr

/-- All error categories that compute_validity can record. -/
def allCategories : List ErrCategory :=
  [.disconnected, .implicit_hydrogens, .wrong_bo, .radicals, .passed,
   .wrong_atom_valence, .kekulization, .other]

/-- The entrywise pairs of two (same-shaped) adjacency matrices, for
stating facts about numpy operations on initial_adj - adj2. -/
def adjPairs (a b : List (List ℚ)) : List (ℚ × ℚ) :=
  ((a.zip b).map (fun p => p.1.zip p.2)).flatten

/-- not np.all(np.abs(initial_adj - adj2) < 1): true when some entry of the
bond-order adjacency matrix moved by at least 1 during sanitization. -/
def bondOrderViolation (a b : List (List ℚ)) : Bool :=
  ! (a.zip b).all fun p => (p.1.zip p.2).all fun q => decide (|q.1 - q.2| < 1)

/-- The per-molecule classification performed by the body of
compute_validity's loop for a molecule whose rdkit_mol is present:
disconnected check, sanitization (whose ValueErrors are caught and
classified), implicit-hydrogen check, then in strict mode the bond-order
comparison and the radical-electron check. -/
def classify (strict : Bool) (m : RDMol) : ErrCategory :=
  if m.numFrags > 1 then .disconnected
  else
    match m.sanitize with
    | some .atomValence => .wrong_atom_valence
    | some .kekulize => .kekulization
    | some .otherValueError => .other
    | none =>
      if m.implicitHs > 0 then .implicit_hydrogens
      else if strict then
        if bondOrderViolation m.initialAdj m.sanitizedAdj then .wrong_bo
        else if m.radicalElectrons > 0 then .radicals
        else .passed
      else .passed

/-- Loop-carried locals of compute_validity. -/
structure ValidityLoopState where
  valid_smiles : List String
  valid_ids : List ℕ
  valid_molecules : List GenMol
  num_components : List ℕ
  errs : List ErrCategory
deriving DecidableEq, Repr

/-- One iteration of compute_validity's loop over enumerate(generated). -/
def validityStep (strict : Bool) (s : ValidityLoopState) (p : ℕ × GenMol) :
    ValidityLoopState :=
  match p.2.rdkit_mol with
  | none => s
  | some m =>
    let s := { s with num_components := s.num_components ++ [m.numFrags] }
    let c := classify strict m
    let s := { s with errs := s.errs ++ [c] }
    if c = .passed then
      { s with valid_smiles := s.valid_smiles ++ [m.smiles],
               valid_ids := s.valid_ids ++ [p.1],
               valid_molecules := s.valid_molecules ++ [p.2] }
    else s

/-- The whole loop of compute_validity. -/
def validityLoop (strict : Bool) (generated : List GenMol) : ValidityLoopState :=
  generated.enum.foldl (validityStep strict) ⟨[], [], [], [], []⟩

/-- Number of molecules that pass every validity check (the length of
valid_smiles before canonicalization/deduplication). -/
def validCount (strict : Bool) (generated : List GenMol) : ℕ :=
  (validityLoop strict generated).valid_smiles.length

/-- Fingerprints are opaque handles produced by RDKit. -/
abbrev Fp := ℕ

/-- The external collaborators of analyze_strict.py: RDKit helpers and the
functions imported from experiments/sampling/utils.py (that file is not
part of the sources, so its functions stay uninterpreted; every branch and
state update using their results is translated from analyze_strict.py). -/
structure Oracle where
  check_stability : GenMol → Bool × ℚ × ℚ
  check_stability_without_bonds : GenMol → Bool × ℚ × ℚ
  canonicalize_list : List String → List String × List ℕ
  canonicalize_list_nostereo : List String → List String
  get_fingerprints_from_smileslist : List String → List Fp
  tanimoto : Fp → Fp → ℚ
  get_random_subset : List String → ℕ → List String
  number_nodes_distance : List GenMol → ℚ
  atom_types_distance : List GenMol → ℚ × List ℚ
  charge_distance : List GenMol → ℚ × List ℚ
  bond_types_distance : List GenMol → ℚ × List ℚ × ℚ
  valency_distance : List GenMol → ℚ × List ℚ
  bond_length_distance : List GenMol → ℚ × List ℚ
  angle_distance : List GenMol → ℚ × List ℚ
  dihedral_distance : List GenMol → ℚ × List ℚ
  calculate_pc_descriptors : List String → List (List ℚ)
  continuous_kldiv : List ℚ → List ℚ → ℚ
  discrete_kldiv : List ℚ → List ℚ → ℚ
  calculate_internal_pairwise_similarities : List String → List (List ℚ)
  np_exp : ℚ → ℚ
  get_mols_list : List String → List ℕ
  qed : ℕ → ℚ

/-- Constructor data of a BasicMolecularMetrics instance: the canonical
training SMILES (None stays None), the training fingerprints, and the
length of dataset_info.atom_decoder. -/
structure BMMConfig where
  train_smiles : Option (List String)
  train_fps : List Fp
  n_atom_types : ℕ

/-- What compute_validity returns (valid_ids is a local that the source
never uses after the loop). -/
structure ValidityResult where
  valid_smiles : List String
  valid_molecules : List GenMol
  connected_components : ℚ
  error_message : List ErrCategory
deriving DecidableEq, Repr

/-- BasicMolecularMetrics.compute_validity.  Divides by len(generated)
without a guard, so an empty input raises ZeroDivisionError.  Updates the
validity, mean_components and max_components accumulators, then
canonicalizes valid_smiles and drops duplicate molecules. -/
def compute_validity (o : Oracle) (strict : Bool) (st : MetricsState)
    (generated : List GenMol) : Except PyError (ValidityResult × MetricsState) :=
  let ls := validityLoop strict generated
  if generated.length = 0 then .error .zeroDivision
  else
    let st := { st with validity_metric :=
      (st.validity_metric.update ((ls.valid_smiles.length : ℚ) / (generated.length : ℚ))
        (generated.length : ℚ)) }
    let st := { st with mean_components :=
      st.mean_components.updateList (ls.num_components.map (fun n => (n : ℚ))) }
    let st := { st with max_components :=
      st.max_components.updateList (ls.num_components.map (fun n => (n : ℚ))) }
    let not_connected : ℚ :=
      100 * ((ls.errs.count .disconnected : ℕ) : ℚ) / (generated.length : ℚ)
    let connected_components := 100 - not_connected
    let pair := o.canonicalize_list ls.valid_smiles
    let valid_molecules :=
      (ls.valid_molecules.enum.filter (fun p => decide (p.1 ∉ pair.2))).map Prod.snd
    .ok (⟨pair.1, valid_molecules, connected_components, ls.errs⟩, st)

/-- BasicMolecularMetrics.compute_sanitize_validity: -1 on an empty input,
otherwise the fraction of molecules whose SanitizeMol raises no ValueError.
Passing a molecule with rdkit_mol None into Chem.SanitizeMol raises an
ArgumentError (not caught by the except ValueError clause). -/
def compute_sanitize_validity (generated : List GenMol) : Except PyError ℚ :=
  if generated.length < 1 then .ok (-1)
  else do
    let valid ← generated.foldlM (fun (acc : ℕ) mol =>
      match mol.rdkit_mol with
      | none => .error PyError.typeError
      | some m => .ok (if m.sanitize = none then acc + 1 else acc)) 0
    .ok ((valid : ℚ) / (generated.length : ℚ))

/-- A Python value that can be an int, a float or a torch tensor
(a NaN tensor is .tensor none); evaluate initialises novelty and
uniqueness to the int 0 and overwrites them with tensors. -/
inductive MetricValue
  | int (n : ℤ)
  | float (q : ℚ)
  | tensor (t : Option ℚ)
deriving DecidableEq, Repr

/-- "novelty if isinstance(novelty, int) else novelty.item()". -/
def MetricValue.toItem : MetricValue → Option ℚ
  | .int n => some (n : ℚ)
  | .float q => some q
  | .tensor t => t

/-- BasicMolecularMetrics.compute_novelty.  With train_smiles None it
prints the degraded-mode notice "Dataset smiles is None, novelty
computation skipped" (the Bool of the result) and returns the int pair
(1, 1); otherwise it returns the novel subset and num_novel/len(unique),
raising ZeroDivisionError when unique is empty. -/
def compute_novelty (train_smiles : Option (List String)) (unique : List String) :
    Except PyError ((List String ⊕ ℤ) × MetricValue × Bool) :=
  match train_smiles with
  | none => .ok (Sum.inr 1, MetricValue.int 1, true)
  | some ts =>
    if unique.length = 0 then .error .zeroDivision
    else
      let novel := unique.filter (fun s => decide (s ∉ ts))
      .ok (Sum.inl novel,
           MetricValue.float ((novel.length : ℚ) / (unique.length : ℚ)), false)

/-- What BasicMolecularMetrics.evaluate returns; novelty_skip_notice is
true iff the degraded-mode notice of compute_novelty was printed during
the call (evaluate itself never prints it: its novelty branch is inlined
at lines 229-235 of analyze_strict.py without the notice). -/
structure EvalResult where
  valid_mols : List GenMol
  valid_smiles : List String
  validity : Option ℚ
  novelty : MetricValue
  uniqueness : MetricValue
  connected_components : ℚ
  novelty_skip_notice : Bool
deriving DecidableEq, Repr

/-- BasicMolecularMetrics.evaluate: compute_validity (strict), read the
validity accumulator, then, when some valid SMILES exist, update the
uniqueness accumulator, update the novelty accumulator only when
train_smiles is not None, and read the novelty accumulator in either
case. -/
def evaluate (o : Oracle) (train_smiles : Option (List String))
    (st : MetricsState) (generated : List GenMol) :
    Except PyError (EvalResult × MetricsState) :=
  match compute_validity o true st generated with
  | .error e => .error e
  | .ok (vr, st1) =>
    let validity := st1.validity_metric.compute
    if vr.valid_smiles.length > 0 then
      let unique := vr.valid_smiles.dedup
      let st2 := { st1 with uniqueness :=
        (st1.uniqueness.update ((unique.length : ℚ) / (vr.valid_smiles.length : ℚ))
          (vr.valid_smiles.length : ℚ)) }
      let uniqVal := MetricValue.tensor st2.uniqueness.compute
      let st3 :=
        match train_smiles with
        | some ts =>
          let novel := unique.filter (fun s => decide (s ∉ ts))
          { st2 with novelty :=
            (st2.novelty.update ((novel.length : ℚ) / (unique.length : ℚ))
              (unique.length : ℚ)) }
        | none => st2
      let novVal := MetricValue.tensor st3.novelty.compute
      .ok (⟨vr.valid_molecules, vr.valid_smiles, validity, novVal, uniqVal,
            vr.connected_components, false⟩, st3)
    else
      .ok (⟨vr.valid_molecules, vr.valid_smiles, validity,
            MetricValue.int 0, MetricValue.int 0,
            vr.connected_components, false⟩, st1)

/-- The eight sampling/* entries of the statistics_log dictionary built at
the end of compute_statistics (each a .compute().item(), or the sentinel
-1.0 when the molecules carry no bonds / no charges). -/
structure StatisticsLog where
  numNodesW1 : Option ℚ
  atomTypesTV : Option ℚ
  edgeTypesTV : Option ℚ
  chargeW1 : Option ℚ
  valencyW1 : Option ℚ
  bondLengthsW1 : Option ℚ
  anglesW1 : Option ℚ
  dihedralsW1 : Option ℚ
deriving DecidableEq, Repr

/-- The angle-distance step of compute_statistics: when the sparsity_level
returned by bond_types_distance is below 0.7 the pair
(angles_w1, angles_w1_per_type) is the fixed sentinel
(0, [-1] * len(atom_decoder)) and angle_distance is not invoked; otherwise
it is the result of angle_distance. -/
def anglesBranch (o : Oracle) (n_atom_types : ℕ) (molecules : List GenMol)
    (sparsity_level : ℚ) : ℚ × List ℚ :=
  if sparsity_level < 7/10 then (0, List.replicate n_atom_types (-1))
  else o.angle_distance molecules

/-- BasicMolecularMetrics.compute_statistics: accumulates each distance
into its metric and builds statistics_log.  molecules[0] on an empty list
raises IndexError. -/
def compute_statistics (o : Oracle) (n_atom_types : ℕ) (st : MetricsState)
    (molecules : List GenMol) : Except PyError (StatisticsLog × MetricsState) :=
  match molecules with
  | [] => .error .indexError
  | m0 :: _ =>
    let st := { st with num_nodes_w1 :=
      (st.num_nodes_w1.update (o.number_nodes_distance molecules) 1) }
    let st := { st with atom_types_tv :=
      (st.atom_types_tv.update (o.atom_types_distance molecules).1 1) }
    let no_charges := m0.charges.isNone
    let st :=
      if no_charges then st
      else { st with charge_w1 :=
        (st.charge_w1.update (o.charge_distance molecules).1 1) }
    let no_bonds := m0.bond_types.isNone
    let st :=
      if no_bonds then st
      else
        let sparsity_level := (o.bond_types_distance molecules).2.2
        let st := { st with edge_types_tv :=
          (st.edge_types_tv.update (o.bond_types_distance molecules).1 1) }
        let st := { st with valency_w1 :=
          (st.valency_w1.update (o.valency_distance molecules).1 1) }
        let st := { st with bond_lengths_w1 :=
          (st.bond_lengths_w1.update (o.bond_length_distance molecules).1 1) }
        let st := { st with angles_w1 :=
          (st.angles_w1.update (anglesBranch o n_atom_types molecules sparsity_level).1 1) }
        { st with dihedrals_w1 :=
          (st.dihedrals_w1.update (o.dihedral_distance molecules).1 1) }
    .ok (⟨st.num_nodes_w1.compute,
          st.atom_types_tv.compute,
          if no_bonds then some (-1) else st.edge_types_tv.compute,
          if no_charges then some (-1) else st.charge_w1.compute,
          if no_bonds then some (-1) else st.valency_w1.compute,
          if no_bonds then some (-1) else st.bond_lengths_w1.compute,
          if no_bonds then some (-1) else st.angles_w1.compute,
          if no_bonds then some (-1) else st.dihedrals_w1.compute⟩, st)

/-- np.mean of a 1-D array: NaN (none) on an empty array. -/
def npMean (l : List ℚ) : Option ℚ :=
  if l.length = 0 then none else some (l.sum / (l.length : ℚ))

/-- np.max along one row (rows passed to it are nonempty in the source). -/
def npMaxRow (l : List ℚ) : ℚ :=
  match l with
  | [] => 0
  | a :: t => t.foldl max a

/-- The aggregation of get_bulk_similarity_with_train over given
fingerprint lists: BulkTanimotoSimilarity of each generated fingerprint
against every training fingerprint, then np.mean over the whole
two-dimensional score array. -/
def bulk_similarity_core (tan : Fp → Fp → ℚ) (fps train_fps : List Fp) : Option ℚ :=
  npMean ((fps.map (fun fp => train_fps.map (tan fp))).flatten)

/-- The aggregation of get_similarity_with_train over given fingerprint
lists: all generated-vs-training pairs in product order, reshaped to one
row per generated fingerprint, maximum along each row, then the mean of
the maxima. -/
def similarity_core (tan : Fp → Fp → ℚ) (fps train_fps : List Fp) : Option ℚ :=
  npMean ((fps.map (fun fp => train_fps.map (tan fp))).map npMaxRow)

/-- BasicMolecularMetrics.get_bulk_similarity_with_train. -/
def get_bulk_similarity_with_train (o : Oracle) (cfg : BMMConfig)
    (generated_smiles : List String) : Option ℚ :=
  bulk_similarity_core o.tanimoto
    (o.get_fingerprints_from_smileslist generated_smiles) cfg.train_fps

/-- BasicMolecularMetrics.get_similarity_with_train (the non-bulk variant;
its reshape presumes one fingerprint per generated SMILES). -/
def get_similarity_with_train (o : Oracle) (cfg : BMMConfig)
    (generated_smiles : List String) : Option ℚ :=
  similarity_core o.tanimoto
    (o.get_fingerprints_from_smileslist generated_smiles) cfg.train_fps

/-- BasicMolecularMetrics.get_bulk_diversity: for each fingerprint, the
Bulk similarities against every other fingerprint, then 1 - np.mean. -/
def get_bulk_diversity (o : Oracle) (generated_smiles : List String) : Option ℚ :=
  let fps := o.get_fingerprints_from_smileslist generated_smiles
  let scores := (List.range fps.length).map
    (fun i => (fps.eraseIdx i).map (o.tanimoto (fps.getD i 0)))
  (npMean scores.flatten).map (fun m => 1 - m)

/-- A column of the n_samples x n_descriptors descriptor array. -/
def descriptorColumn (m : List (List ℚ)) (i : ℕ) : List ℚ :=
  m.map (fun row => row.getD i 0)

/-- The ten KL-divergence values assembled by get_kl_divergence: the
continuous KL divergences of descriptor columns 0..3, the discrete KL
divergences of columns 4..8, and the KL divergence of the internal
pairwise-similarity row maxima. -/
def kldivValuesQ (o : Oracle) (train_subset generated_smiles : List String) :
    List ℚ :=
  let unique_molecules := (o.canonicalize_list_nostereo generated_smiles).dedup
  let d_sampled := o.calculate_pc_descriptors unique_molecules
  let d_chembl := o.calculate_pc_descriptors train_subset
  ((List.range 4).map fun i =>
      o.continuous_kldiv (descriptorColumn d_chembl i) (descriptorColumn d_sampled i))
  ++ ((List.range 5).map fun i =>
      o.discrete_kldiv (descriptorColumn d_chembl (4 + i))
        (descriptorColumn d_sampled (4 + i)))
  ++ [o.continuous_kldiv
        ((o.calculate_internal_pairwise_similarities train_subset).map npMaxRow)
        ((o.calculate_internal_pairwise_similarities unique_molecules).map npMaxRow)]

/-- BasicMolecularMetrics.get_kl_divergence as used inside __call__, with
numpy's floating-point exp as an uninterpreted oracle field: the mean of
np_exp(-v) over the ten KL values. -/
def get_kl_divergence_q (o : Oracle) (train_subset generated_smiles : List String) : ℚ :=
  let kldivs := kldivValuesQ o train_subset generated_smiles
  let scores := kldivs.map (fun v => o.np_exp (-v))
  scores.sum / (scores.length : ℚ)

/-- The external collaborators of get_kl_divergence, real-valued, for the
analytic statement about the exp(-v) transform. -/
structure KLOracle where
  canonicalize_list_nostereo : List String → List String
  calculate_pc_descriptors : List String → List (List ℝ)
  continuous_kldiv : List ℝ → List ℝ → ℝ
  discrete_kldiv : List ℝ → List ℝ → ℝ
  calculate_internal_pairwise_similarities : List String → List (List ℝ)

/-- A real-valued descriptor column. -/
def descriptorColumnR (m : List (List ℝ)) (i : ℕ) : List ℝ :=
  m.map (fun row => row.getD i 0)

/-- Row maximum over the reals. -/
noncomputable def npMaxRowR (l : List ℝ) : ℝ :=
  match l with
  | [] => 0
  | a :: t => t.foldl max a

/-- The ten KL-divergence values of get_kl_divergence, real-valued. -/
noncomputable def kldivValues (o : KLOracle) (train_subset generated_smiles : List String) :
    List ℝ :=
  let unique_molecules := (o.canonicalize_list_nostereo generated_smiles).dedup
  let d_sampled := o.calculate_pc_descriptors unique_molecules
  let d_chembl := o.calculate_pc_descriptors train_subset
  ((List.range 4).map fun i =>
      o.continuous_kldiv (descriptorColumnR d_chembl i) (descriptorColumnR d_sampled i))
  ++ ((List.range 5).map fun i =>
      o.discrete_kldiv (descriptorColumnR d_chembl (4 + i))
        (descriptorColumnR d_sampled (4 + i)))
  ++ [o.continuous_kldiv
        ((o.calculate_internal_pairwise_similarities train_subset).map npMaxRowR)
        ((o.calculate_internal_pairwise_similarities unique_molecules).map npMaxRowR)]

/-- BasicMolecularMetrics.get_kl_divergence with the exact exp transform:
each KL value v becomes exp(-v) and the score is the mean of the ten
transformed values. -/
noncomputable def get_kl_divergence (o : KLOracle)
    (train_subset generated_smiles : List String) : ℝ :=
  let scores := (kldivValues o train_subset generated_smiles).map
    (fun v => Real.exp (-v))
  scores.sum / (scores.length : ℝ)

/-- The stability_dict built by __call__. -/
structure StabilityDict where
  mol_stable : Option ℚ
  atm_stable : Option ℚ
deriving DecidableEq, Repr

/-- The validity_dict built by __call__. -/
structure ValidityDict where
  validity : Option ℚ
  sanitize_validity : ℚ
  novelty : Option ℚ
  uniqueness : Option ℚ
deriving DecidableEq, Repr

/-- The statistics_dict built by __call__ when at least one valid molecule
exists (it stays the empty dict otherwise). -/
structure StatsDict where
  log : StatisticsLog
  connected_components : ℚ
  similarity : Option ℚ
  diversity : Option ℚ
  kl_score : ℚ
  qed_score : Option ℚ
deriving DecidableEq, Repr

/-- The tuple returned by BasicMolecularMetrics.__call__ (smiles and
molecules are None unless requested and nonempty). -/
structure CallResult where
  stability_dict : StabilityDict
  validity_dict : ValidityDict
  statistics_dict : Option StatsDict
  all_generated_smiles : Option (List String)
  valid_molecules : Option (List GenMol)
deriving DecidableEq, Repr

/-- The stability loop at the top of __call__: check_stability (or the
bond-free variant), then update the mol_stable and atom_stable metrics. -/
def stabilityStep (o : Oracle) (s : MetricsState) (mol : GenMol) : MetricsState :=
  let t := match mol.bond_types with
    | none => o.check_stability_without_bonds mol
    | some _ => o.check_stability mol
  let s := { s with mol_stable := (s.mol_stable.update (if t.1 then 1 else 0) 1) }
  { s with atom_stable := (s.atom_stable.update (t.2.1 / t.2.2) t.2.2) }

/-- The whole stability loop of __call__. -/
def stabilityLoop (o : Oracle) (st : MetricsState) (molecules : List GenMol) :
    MetricsState :=
  molecules.foldl (stabilityStep o) st

/-- BasicMolecularMetrics.__call__: stability loop, evaluate,
compute_sanitize_validity, the three result dictionaries, and — only when
at least one valid molecule exists — compute_statistics, the similarity /
diversity / KL / QED scores and the final self.reset().  len(None) when
train_smiles is None raises TypeError at the train-subset selection. -/
def call (o : Oracle) (cfg : BMMConfig) (st : MetricsState)
    (molecules : List GenMol) (return_molecules : Bool) :
    Except PyError (CallResult × MetricsState) :=
  let st1 := stabilityLoop o st molecules
  let stability_dict : StabilityDict :=
    ⟨st1.mol_stable.compute, st1.atom_stable.compute⟩
  match evaluate o cfg.train_smiles st1 molecules with
  | .error e => .error e
  | .ok (er, st2) =>
    match compute_sanitize_validity molecules with
    | .error e => .error e
    | .ok sanitize_validity =>
      let validity_dict : ValidityDict :=
        ⟨er.validity, sanitize_validity, er.novelty.toItem, er.uniqueness.toItem⟩
      if er.valid_mols.length > 0 then
        match compute_statistics o cfg.n_atom_types st2 er.valid_mols with
        | .error e => .error e
        | .ok (slog, _st3) =>
          match cfg.train_smiles with
          | none => .error .typeError
          | some ts =>
            let number_samples := er.valid_smiles.length
            let train_subset :=
              if er.valid_smiles.length ≤ ts.length
              then o.get_random_subset ts number_samples
              else ts
            let similarity := get_bulk_similarity_with_train o cfg er.valid_smiles
            let diversity := get_bulk_diversity o er.valid_smiles
            let kl_score :=
              if er.valid_smiles.length > 0
              then get_kl_divergence_q o train_subset er.valid_smiles
              else -1
            let qed_score :=
              if er.valid_smiles.length > 0
              then npMean ((o.get_mols_list er.valid_smiles).map o.qed)
              else some (-1)
            let stats : StatsDict :=
              ⟨slog, er.connected_components, similarity, diversity, kl_score,
               qed_score⟩
            let st4 := initMetricsState
            if return_molecules then
              .ok (⟨stability_dict, validity_dict, some stats,
                    some er.valid_smiles, some er.valid_mols⟩, st4)
            else
              .ok (⟨stability_dict, validity_dict, some stats, none, none⟩, st4)
      else
        .ok (⟨stability_dict, validity_dict, none, none, none⟩, st2)

/-- split_list of experiments/docking_utils.py, as a recursion over the
chunk counter: the loop hands out chunk_size + 1 elements while i <
remainder and chunk_size elements afterwards, consuming the data slice by
slice. -/
def splitGo {α : Type} (chunk_size : ℕ) : List α → ℕ → ℕ → List (List α)
  | _, 0, _ => []
  | data, k + 1, 0 =>
    data.take chunk_size :: splitGo chunk_size (data.drop chunk_size) k 0
  | data, k + 1, r + 1 =>
    data.take (chunk_size + 1) :: splitGo chunk_size (data.drop (chunk_size + 1)) k r

/-- split_list(data, num_chunks). -/
def split_list {α : Type} (data : List α) (num_chunks : ℕ) : List (List α) :=
  splitGo (data.length / num_chunks) data num_chunks (data.length % num_chunks)

/-- A concrete instantiation of the external collaborators, for evaluating
the pipeline on concrete inputs (canonicalization is the identity, every
distance is 0, the reported sparsity level is 1). -/
def oracle0 : Oracle where
  check_stability := fun _ => (true, 1, 1)
  check_stability_without_bonds := fun _ => (true, 1, 1)
  canonicalize_list := fun l => (l, [])
  canonicalize_list_nostereo := fun l => l
  get_fingerprints_from_smileslist := fun l => l.map (fun _ => 0)
  tanimoto := fun _ _ => 0
  get_random_subset := fun l _ => l
  number_nodes_distance := fun _ => 0
  atom_types_distance := fun _ => (0, [])
  charge_distance := fun _ => (0, [])
  bond_types_distance := fun _ => (0, [], 1)
  valency_distance := fun _ => (0, [])
  bond_length_distance := fun _ => (0, [])
  angle_distance := fun _ => (0, [])
  dihedral_distance := fun _ => (0, [])
  calculate_pc_descriptors := fun l => l.map (fun _ => [0, 0, 0, 0, 0, 0, 0, 0, 0])
  continuous_kldiv := fun _ _ => 0
  discrete_kldiv := fun _ _ => 0
  calculate_internal_pairwise_similarities := fun l => l.map (fun _ => [0])
  np_exp := fun _ => 1
  get_mols_list := fun l => l.map (fun _ => 0)
  qed := fun _ => 0

/-- A concrete instance configuration: a one-element training set. -/
def cfg0 : BMMConfig := ⟨some ["t"], [0], 1⟩

/-- A molecule that clears every validity check: one fragment, successful
sanitization, no implicit hydrogens, unchanged adjacency, no radicals. -/
def molGood : GenMol :=
  ⟨some ⟨[[0]], 1, none, 0, [[0]], 0, "g"⟩, some (), some ()⟩

/-- A molecule whose rdkit_mol decomposes into two fragments, so
compute_validity classifies it as disconnected. -/
def molBad : GenMol :=
  ⟨some ⟨[[0]], 2, none, 0, [[0]], 0, "b"⟩, some (), some ()⟩

/-- A single-fragment molecule that sanitizes cleanly but whose bond-order
matrix changes by 1 during sanitization AND that retains one radical
electron afterwards. -/
def molBOandRadical : RDMol :=
  ⟨[[0, 2], [2, 0]], 1, none, 0, [[0, 1], [1, 0]], 1, "r"⟩

/-- A single-fragment molecule with a bond-order change of 2 and no
radicals. -/
def molBOonly : RDMol :=
  ⟨[[0, 2]], 1, none, 0, [[0, 0]], 0, "w"⟩

/-- oracle0 with a reported sparsity level of exactly 0.7 and a nonzero
angle distance. -/
def oracleSparsityBoundary : Oracle :=
  { oracle0 with
    bond_types_distance := fun _ => (0, [], 7/10)
    angle_distance := fun _ => (5, [3]) }

/-- Real-valued KL collaborators that return zero divergences. -/
def klZero : KLOracle :=
  ⟨fun _ => [], fun _ => [], fun _ _ => 0, fun _ _ => 0, fun _ => []⟩

/-- The metric state after compute_validity on the single passing
molecule, from a fresh instance. -/
def stVGood : MetricsState :=
  { initMetricsState with
    validity_metric := ⟨1, 1⟩
    mean_components := ⟨1, 1⟩
    max_components := ⟨some 1⟩ }

/-- The metric state after compute_validity on the single disconnected
molecule, from a fresh instance. -/
def stVBad : MetricsState :=
  { initMetricsState with
    validity_metric := ⟨0, 1⟩
    mean_components := ⟨2, 1⟩
    max_components := ⟨some 2⟩ }

/-- The metric state after evaluate on the single passing molecule with an
empty (present) training set, from a fresh instance. -/
def stEGood : MetricsState :=
  { stVGood with uniqueness := ⟨1, 1⟩, novelty := ⟨1, 1⟩ }

/-- The metric state after the stability loop on the single disconnected
molecule, from a fresh instance. -/
def stS : MetricsState :=
  { initMetricsState with atom_stable := ⟨1, 1⟩, mol_stable := ⟨1, 1⟩ }

/-- The metric state that __call__ leaves behind after a batch whose only
molecule is disconnected (no valid molecule, so no reset happens). -/
def stB : MetricsState :=
  { stS with
    validity_metric := ⟨0, 1⟩
    mean_components := ⟨2, 1⟩
    max_components := ⟨some 2⟩ }

/-- The result __call__ returns for the all-invalid batch [molBad]. -/
def resBad : CallResult :=
  ⟨⟨some 1, some 1⟩, ⟨some 0, 1, some 0, some 0⟩, none, none, none⟩

/-- The metric state after the stability loop of a second call, on
[molGood], starting from the leaked state stB. -/
def stS2 : MetricsState :=
  { stB with atom_stable := ⟨2, 2⟩, mol_stable := ⟨2, 2⟩ }

/-- The metric state after evaluate of the second call on [molGood]: the
validity accumulator now holds both batches. -/
def stE2 : MetricsState :=
  { stS2 with
    validity_metric := ⟨1, 2⟩
    mean_components := ⟨3, 2⟩
    max_components := ⟨some 2⟩
    uniqueness := ⟨1, 1⟩
    novelty := ⟨1, 1⟩ }

/-- The statistics_log of the second call under oracle0 (all distances 0,
each accumulator holding one weight-1 update). -/
def slogZero : StatisticsLog :=
  ⟨some 0, some 0, some 0, some 0, some 0, some 0, some 0, some 0⟩

/-- The result of the second call on [molGood] from the leaked state stB:
its reported validity is 1/2, not the batch's own ratio 1/1. -/
def res2 : CallResult :=
  ⟨⟨some 1, some 1⟩, ⟨some (1/2), 1, some 1, some 1⟩,
   some ⟨slogZero, 100, some 0, none, 1, some 0⟩, none, none⟩

/-! ## Theorems -/

/-- C7: for an empty input list of generated molecules, compute_validity is
not guarded: it raises ZeroDivisionError at the division by len(generated)
instead of returning a value. -/
theorem compute_validity_empty_input_division_error (o : Oracle) (strict : Bool)
    (st : MetricsState) :
    compute_validity o strict st [] = .error PyError.zeroDivision := rfl

lemma splitGo_spec {α : Type} (q : ℕ) :
    ∀ (k r : ℕ) (data : List α), r ≤ k → data.length = k * q + r →
      (splitGo q data k r).length = k ∧
      (splitGo q data k r).flatten = data ∧
      ∀ i, i < k → ((splitGo q data k r).getD i []).length
        = q + (if i < r then 1 else 0) := by
  intro k
  induction k with
  | zero =>
    intro r data hr hlen
    have hr0 : r = 0 := Nat.le_zero.mp hr
    subst hr0
    have : data = [] := List.length_eq_zero.mp (by simpa using hlen)
    subst this
    exact ⟨rfl, rfl, fun i hi => absurd hi (Nat.not_lt_zero i)⟩
  | succ k ih =>
    intro r data hr hlen
    cases r with
    | zero =>
      have hlen' : data.length = k * q + q := by
        rw [hlen, Nat.succ_mul]; omega
      have hq_le : q ≤ data.length := by omega
      have htake : (data.take q).length = q := by
        rw [List.length_take]; omega
      have hdrop : (data.drop q).length = k * q + 0 := by
        rw [List.length_drop]; omega
      obtain ⟨l1, l2, l3⟩ := ih 0 (data.drop q) (Nat.zero_le k) hdrop
      refine ⟨by simp [splitGo, l1], ?_, ?_⟩
      · simp only [splitGo, List.flatten_cons, l2, List.take_append_drop]
      · intro i hi
        cases i with
        | zero => simp [splitGo, htake]
        | succ j =>
          have hj : j < k := by omega
          simpa [splitGo] using l3 j hj
    | succ r' =>
      have hlen' : data.length = (q + 1) + (k * q + r') := by
        rw [hlen, Nat.succ_mul]; omega
      have hq_le : q + 1 ≤ data.length := by omega
      have htake : (data.take (q + 1)).length = q + 1 := by
        rw [List.length_take]; omega
      have hdrop : (data.drop (q + 1)).length = k * q + r' := by
        rw [List.length_drop]; omega
      have hr' : r' ≤ k := by omega
      obtain ⟨l1, l2, l3⟩ := ih r' (data.drop (q + 1)) hr' hdrop
      refine ⟨by simp [splitGo, l1], ?_, ?_⟩
      · simp only [splitGo, List.flatten_cons, l2, List.take_append_drop]
      · intro i hi
        cases i with
        | zero => simp [splitGo, htake]
        | succ j =>
          have hj : j < k := by omega
          have := l3 j hj
          simpa [splitGo] using this

/-- C10: split_list(data, num_chunks) with num_chunks ≥ 1 returns exactly
num_chunks chunks whose in-order concatenation is data, where the first
len(data) % num_chunks chunks carry len(data) / num_chunks + 1 elements
and the remaining chunks carry len(data) / num_chunks elements. -/
theorem split_list_chunks_spec {α : Type} (data : List α) (n : ℕ) (h : 1 ≤ n) :
    (split_list data n).length = n ∧
    (split_list data n).flatten = data ∧
    ∀ i, i < n → ((split_list data n).getD i []).length
      = data.length / n + (if i < data.length % n then 1 else 0) := by
  have hmod : data.length % n < n := Nat.mod_lt _ h
  have hlen : data.length = n * (data.length / n) + data.length % n :=
    (Nat.div_add_mod _ _).symm
  exact splitGo_spec (data.length / n) n (data.length % n) data
    (le_of_lt hmod) hlen

/-- C10 witness: splitting a three-element list into two chunks. -/
theorem split_list_chunks_spec_witness :
    (split_list [1, 2, 3] 2).length = 2 ∧
    (split_list [1, 2, 3] 2).flatten = [1, 2, 3] := by
  have h := split_list_chunks_spec [1, 2, 3] 2 (by norm_num)
  exact ⟨h.1, h.2.1⟩

lemma bondOrderViolation_iff (a b : List (List ℚ)) :
    bondOrderViolation a b = true ↔ ∃ q ∈ adjPairs a b, 1 ≤ |q.1 - q.2| := by
  have hstep : bondOrderViolation a b = true ↔
      ¬ (∀ p ∈ a.zip b, ∀ q ∈ p.1.zip p.2, |q.1 - q.2| < 1) := by
    simp [bondOrderViolation, List.all_eq_true]
  rw [hstep]
  push_neg
  simp only [adjPairs]
  constructor
  · rintro ⟨p, hp, q, hq, hge⟩
    exact ⟨q, List.mem_flatten.mpr ⟨p.1.zip p.2, List.mem_map.mpr ⟨p, hp, rfl⟩, hq⟩,
      hge⟩
  · rintro ⟨q, hq, hge⟩
    obtain ⟨row, hrow, hqrow⟩ := List.mem_flatten.mp hq
    obtain ⟨p, hp, rfl⟩ := List.mem_map.mp hrow
    exact ⟨p, hp, q, hqrow, hge⟩

/-- C3 (amended): for a molecule that survives fragment decomposition and
sanitization with no implicit hydrogens, and whose adjacency entries move
by half-integers (RDKit bond orders are in {0, 1, 1.5, 2, 3}), strict-mode
compute_validity classifies it wrong_bo exactly when some bond-order entry
changes by more than 0.5, and classifies it radicals exactly when no such
bond-order change exists AND the post-sanitization unpaired-electron count
is positive (the wrong_bo check shadows the radical check). -/
theorem strict_wrong_bo_and_radicals_classification (m : RDMol)
    (h1 : m.numFrags ≤ 1) (h2 : m.sanitize = none) (h3 : m.implicitHs = 0)
    (h4 : ∀ q ∈ adjPairs m.initialAdj m.sanitizedAdj,
      ∃ k : ℤ, q.1 - q.2 = (k : ℚ) / 2) :
    (classify true m = ErrCategory.wrong_bo ↔
      ∃ q ∈ adjPairs m.initialAdj m.sanitizedAdj, 1/2 < |q.1 - q.2|) ∧
    (classify true m = ErrCategory.radicals ↔
      ((¬ ∃ q ∈ adjPairs m.initialAdj m.sanitizedAdj, 1/2 < |q.1 - q.2|) ∧
        0 < m.radicalElectrons)) := by
  have hkey : (∃ q ∈ adjPairs m.initialAdj m.sanitizedAdj, 1 ≤ |q.1 - q.2|) ↔
      (∃ q ∈ adjPairs m.initialAdj m.sanitizedAdj, 1/2 < |q.1 - q.2|) := by
    constructor
    · rintro ⟨q, hq, hge⟩
      exact ⟨q, hq, lt_of_lt_of_le (by norm_num) hge⟩
    · rintro ⟨q, hq, hgt⟩
      obtain ⟨k, hk⟩ := h4 q hq
      refine ⟨q, hq, ?_⟩
      rw [hk] at hgt ⊢
      rw [abs_div, abs_two] at hgt ⊢
      have hq1 : (1 : ℚ) < |(k : ℚ)| := by linarith
      have hz1 : (1 : ℤ) < |k| := by
        rw [← Int.cast_abs] at hq1
        exact_mod_cast hq1
      have hz2 : (2 : ℤ) ≤ |k| := by omega
      have hq2 : (2 : ℚ) ≤ |(k : ℚ)| := by
        rw [← Int.cast_abs]
        exact_mod_cast hz2
      linarith
  have hfr : ¬ m.numFrags > 1 := by omega
  by_cases hb : bondOrderViolation m.initialAdj m.sanitizedAdj
  · have hex : ∃ q ∈ adjPairs m.initialAdj m.sanitizedAdj, 1/2 < |q.1 - q.2| :=
      hkey.mp ((bondOrderViolation_iff _ _).mp hb)
    have hcls : classify true m = ErrCategory.wrong_bo := by
      simp [classify, hfr, h2, h3, hb]
    constructor
    · exact iff_of_true hcls hex
    · refine iff_of_false (by rw [hcls]; intro hc; exact absurd hc (by decide)) ?_
      rintro ⟨hn, _⟩
      exact hn hex
  · have hnex : ¬ ∃ q ∈ adjPairs m.initialAdj m.sanitizedAdj, 1/2 < |q.1 - q.2| := by
      intro hc
      exact hb ((bondOrderViolation_iff _ _).mpr (hkey.mpr hc))
    by_cases hr : m.radicalElectrons > 0
    · have hcls : classify true m = ErrCategory.radicals := by
        simp [classify, hfr, h2, h3, hb, hr]
      constructor
      · exact iff_of_false (by rw [hcls]; intro hc; exact absurd hc (by decide)) hnex
      · exact iff_of_true hcls ⟨hnex, hr⟩
    · have hcls : classify true m = ErrCategory.passed := by
        simp [classify, hfr, h2, h3, hb, hr]
      constructor
      · exact iff_of_false (by rw [hcls]; intro hc; exact absurd hc (by decide)) hnex
      · refine iff_of_false (by rw [hcls]; intro hc; exact absurd hc (by decide)) ?_
        rintro ⟨_, hrr⟩
        exact hr hrr

/-- C3 counterexample: a molecule that survives fragment decomposition and
sanitization, has a positive unpaired-electron count, yet is NOT excluded
with category radicals (the bond-order change of 1 claims it first). -/
theorem radicals_shadowed_by_wrong_bond_order :
    molBOandRadical.numFrags ≤ 1 ∧ molBOandRadical.sanitize = none ∧
    molBOandRadical.implicitHs = 0 ∧ 0 < molBOandRadical.radicalElectrons ∧
    classify true molBOandRadical ≠ ErrCategory.radicals := by
  refine ⟨by norm_num [molBOandRadical], by norm_num [molBOandRadical],
    by norm_num [molBOandRadical], by norm_num [molBOandRadical], ?_⟩
  norm_num [classify, molBOandRadical, bondOrderViolation]
  decide

/-- C3 witness: the amended classification applied to a molecule whose
bond order changes by 2 and that has no radicals. -/
theorem strict_wrong_bo_and_radicals_classification_witness :
    classify true molBOonly = ErrCategory.wrong_bo := by
  have h4 : ∀ q ∈ adjPairs molBOonly.initialAdj molBOonly.sanitizedAdj,
      ∃ k : ℤ, q.1 - q.2 = (k : ℚ) / 2 := by
    intro q hq
    simp only [molBOonly, adjPairs, List.zip_cons_cons, List.zip_nil_right,
      List.map_cons, List.map_nil, List.flatten] at hq
    simp at hq
    rcases hq with h | h
    · rw [h]; exact ⟨0, by norm_num⟩
    · rw [h]; exact ⟨4, by norm_num⟩
  have h := strict_wrong_bo_and_radicals_classification molBOonly
    (by norm_num [molBOonly]) (by norm_num [molBOonly])
    (by norm_num [molBOonly]) h4
  refine h.1.mpr ⟨(2, 0), ?_, by norm_num⟩
  simp [molBOonly, adjPairs]

lemma sum_map_add {α : Type} (l : List α) (f g : α → ℕ) :
    (l.map (fun c => f c + g c)).sum = (l.map f).sum + (l.map g).sum := by
  induction l with
  | nil => simp
  | cons a t ih => simp [ih]; omega

lemma count_allCategories (errs : List ErrCategory) :
    (allCategories.map (fun c => errs.count c)).sum = errs.length := by
  induction errs with
  | nil => simp [allCategories]
  | cons e t ih =>
    have h1 : ∀ c : ErrCategory, (e :: t).count c = t.count c + (if e = c then 1 else 0) := by
      intro c
      rw [List.count_cons]
      simp [beq_iff_eq]
    calc (allCategories.map fun c => (e :: t).count c).sum
        = (allCategories.map fun c => t.count c + (if e = c then 1 else 0)).sum := by
          simp only [h1]
      _ = (allCategories.map fun c => t.count c).sum
            + (allCategories.map fun c => (if e = c then 1 else 0)).sum :=
          sum_map_add allCategories _ _
      _ = t.length + 1 := by
          rw [ih]
          congr 1
          cases e <;> decide
      _ = (e :: t).length := by simp

lemma validityStep_errs (strict : Bool) (s : ValidityLoopState) (p : ℕ × GenMol) :
    (validityStep strict s p).errs
      = s.errs ++ (p.2.rdkit_mol.map (classify strict)).toList := by
  cases hm : p.2.rdkit_mol with
  | none => simp [validityStep, hm]
  | some m =>
    simp only [validityStep, hm, Option.map_some, Option.toList_some]
    split <;> simp

lemma validity_foldl_errs (strict : Bool) :
    ∀ (l : List (ℕ × GenMol)) (s : ValidityLoopState),
      (l.foldl (validityStep strict) s).errs
        = s.errs ++ (l.map Prod.snd).filterMap
            (fun mol => mol.rdkit_mol.map (classify strict)) := by
  intro l
  induction l with
  | nil => intro s; simp
  | cons p t ih =>
    intro s
    rw [List.foldl_cons, ih, validityStep_errs]
    cases hm : p.2.rdkit_mol with
    | none => simp [List.filterMap_cons, hm]
    | some m => simp [List.filterMap_cons, hm]

lemma validityLoop_errs (strict : Bool) (g : List GenMol) :
    (validityLoop strict g).errs
      = g.filterMap (fun mol => mol.rdkit_mol.map (classify strict)) := by
  rw [validityLoop, validity_foldl_errs]
  simp [List.enum_map_snd]

lemma filterMap_classify_length (strict : Bool) (g : List GenMol)
    (h : ∀ mol ∈ g, mol.rdkit_mol.isSome) :
    (g.filterMap (fun mol => mol.rdkit_mol.map (classify strict))).length
      = g.length := by
  induction g with
  | nil => simp
  | cons a t ih =>
    obtain ⟨m, hm⟩ := Option.isSome_iff_exists.mp (h a (by simp))
    simp [List.filterMap_cons, hm, ih (fun mol hmol => h mol (by simp [hmol]))]

lemma compute_validity_ok_spec (o : Oracle) (strict : Bool) (st : MetricsState)
    (g : List GenMol) (r : ValidityResult) (st' : MetricsState)
    (h : compute_validity o strict st g = .ok (r, st')) :
    g ≠ [] ∧
    r.error_message = (validityLoop strict g).errs ∧
    r.valid_smiles = (o.canonicalize_list (validityLoop strict g).valid_smiles).1 ∧
    r.valid_molecules = ((validityLoop strict g).valid_molecules.enum.filter
        (fun p => decide (p.1 ∉ (o.canonicalize_list
          (validityLoop strict g).valid_smiles).2))).map Prod.snd ∧
    st' = { st with
      validity_metric := (st.validity_metric.update
        ((validCount strict g : ℚ) / (g.length : ℚ)) (g.length : ℚ)),
      mean_components := (st.mean_components.updateList
        ((validityLoop strict g).num_components.map (fun n => (n : ℚ)))),
      max_components := (st.max_components.updateList
        ((validityLoop strict g).num_components.map (fun n => (n : ℚ)))) } := by
  unfold compute_validity at h
  split at h
  · exact absurd h (by simp)
  · rename_i hlen
    rw [Except.ok.injEq, Prod.mk.injEq] at h
    obtain ⟨hr, hst⟩ := h
    subst hr
    subst hst
    exact ⟨fun hg => hlen (by simp [hg]), rfl, rfl, rfl, rfl⟩

/-- C6: when every generated molecule has a non-None rdkit_mol, the error
category counts produced by compute_validity (the "passed" category
included) sum exactly to the number of input molecules: the loop records
exactly one category per molecule. -/
theorem error_counts_sum_to_total (o : Oracle) (strict : Bool) (st : MetricsState)
    (g : List GenMol) (r : ValidityResult) (st' : MetricsState)
    (h1 : ∀ mol ∈ g, mol.rdkit_mol.isSome)
    (h2 : compute_validity o strict st g = .ok (r, st')) :
    (allCategories.map (fun c => r.error_message.count c)).sum = g.length := by
  rw [(compute_validity_ok_spec o strict st g r st' h2).2.1, count_allCategories,
    validityLoop_errs, filterMap_classify_length strict g h1]

/-- C6 witness: one fully valid molecule yields category counts summing
to 1. -/
theorem error_counts_sum_to_total_witness :
    (compute_validity oracle0 true initMetricsState [molGood]).toOption.map
      (fun p => (allCategories.map (fun c => p.1.error_message.count c)).sum)
      = some 1 := by
  cases h : compute_validity oracle0 true initMetricsState [molGood] with
  | error e =>
    have : (compute_validity oracle0 true initMetricsState [molGood]).toOption.isSome := by
      norm_num [compute_validity, validityLoop, validityStep, classify, molGood,
        oracle0, initMetricsState, bondOrderViolation, List.enum, List.enumFrom,
        MeanMetricState.update, MeanMetricState.updateList, MaxMetricState.updateList,
        Except.toOption]
    rw [h] at this
    simp [Except.toOption] at this
  | ok p =>
    obtain ⟨r, st'⟩ := p
    have hsum := error_counts_sum_to_total oracle0 true initMetricsState [molGood] r st'
      (by intro mol hmol; simp at hmol; subst hmol; simp [molGood]) h
    have hone : (allCategories.map fun c => r.error_message.count c).sum = 1 := by
      simpa using hsum
    exact congrArg some hone

lemma foldl_max_mem : ∀ (t : List ℚ) (a : ℚ), t.foldl max a ∈ a :: t := by
  intro t
  induction t with
  | nil => intro a; simp
  | cons b t ih =>
    intro a
    rw [List.foldl_cons]
    rcases List.mem_cons.mp (ih (max a b)) with h | h
    · rw [h]
      rcases max_choice a b with hm | hm <;> rw [hm] <;> simp
    · exact List.mem_cons_of_mem _ (List.mem_cons_of_mem _ h)

lemma foldl_max_le : ∀ (t : List ℚ) (a x : ℚ), x ∈ a :: t → x ≤ t.foldl max a := by
  intro t
  induction t with
  | nil =>
    intro a x hx
    simp at hx
    simp [hx]
  | cons b t ih =>
    intro a x hx
    rw [List.foldl_cons]
    have hmab : max a b ≤ t.foldl max (max a b) :=
      ih (max a b) (max a b) (List.mem_cons_self _ _)
    rcases List.mem_cons.mp hx with rfl | hx'
    · exact le_trans (le_max_left _ b) hmab
    · rcases List.mem_cons.mp hx' with rfl | hx''
      · exact le_trans (le_max_right a _) hmab
      · exact ih (max a b) x (List.mem_cons_of_mem _ hx'')

lemma npMaxRow_spec (l : List ℚ) (h : l ≠ []) :
    npMaxRow l ∈ l ∧ ∀ x ∈ l, x ≤ npMaxRow l := by
  match l with
  | [] => exact absurd rfl h
  | a :: t =>
    exact ⟨foldl_max_mem t a, fun x hx => foldl_max_le t a x hx⟩

lemma sum_map_const_nat {α : Type} (l : List α) (n : ℕ) :
    (l.map fun _ => n).sum = l.length * n := by
  induction l with
  | nil => simp
  | cons a t ih =>
    simp only [List.map_cons, List.sum_cons, ih, List.length_cons, Nat.succ_mul]
    omega

/-- C8: over nonempty generated and training fingerprint sets, the bulk
similarity-with-train is the arithmetic mean of Tanimoto similarities over
ALL generated-vs-training pairs, whereas the non-bulk variant is the mean
over generated fingerprints of each one's maximum similarity to the
training set (npMaxRow being a genuine maximum of its row). -/
theorem bulk_similarity_vs_max_similarity (tan : Fp → Fp → ℚ) (fps tfps : List Fp)
    (h1 : fps ≠ []) (h2 : tfps ≠ []) :
    bulk_similarity_core tan fps tfps
      = some ((fps.map (fun f => (tfps.map (tan f)).sum)).sum
          / ((fps.length : ℚ) * (tfps.length : ℚ))) ∧
    similarity_core tan fps tfps
      = some ((fps.map (fun f => npMaxRow (tfps.map (tan f)))).sum
          / (fps.length : ℚ)) ∧
    ∀ f : Fp, npMaxRow (tfps.map (tan f)) ∈ tfps.map (tan f) ∧
      ∀ x ∈ tfps.map (tan f), x ≤ npMaxRow (tfps.map (tan f)) := by
  have hfl : fps.length ≠ 0 := fun hc => h1 (List.length_eq_zero.mp hc)
  have htl : tfps.length ≠ 0 := fun hc => h2 (List.length_eq_zero.mp hc)
  have hlen : ((fps.map fun f => tfps.map (tan f)).flatten).length
      = fps.length * tfps.length := by
    rw [List.length_flatten, List.map_map]
    simp only [Function.comp_def, List.length_map]
    exact sum_map_const_nat fps tfps.length
  have hsum : ((fps.map fun f => tfps.map (tan f)).flatten).sum
      = (fps.map (fun f => (tfps.map (tan f)).sum)).sum := by
    rw [List.sum_flatten, List.map_map]
    simp [Function.comp_def]
  refine ⟨?_, ?_, ?_⟩
  · rw [bulk_similarity_core, npMean, hlen, hsum,
      if_neg (Nat.mul_ne_zero hfl htl)]
    norm_num [Nat.cast_mul]
  · rw [similarity_core, npMean]
    rw [List.length_map, List.length_map]
    rw [if_neg hfl]
    rw [List.map_map]
    simp [Function.comp_def]
  · intro f
    exact npMaxRow_spec (tfps.map (tan f)) (by simp [h2])

/-- C8 witness: the bulk mean over all pairs, at a concrete two-by-one
pair set with zero similarities. -/
theorem bulk_similarity_vs_max_similarity_witness :
    bulk_similarity_core (fun _ _ => (0 : ℚ)) [5] [7, 8] = some 0 := by
  have h := bulk_similarity_vs_max_similarity (fun _ _ => (0 : ℚ)) [5] [7, 8]
    (by simp) (by simp)
  rw [h.1]
  norm_num

lemma sum_exp_bounds (l : List ℝ) (h : ∀ x ∈ l, 0 < x ∧ x ≤ 1) :
    l.sum ≤ l.length ∧ (l ≠ [] → 0 < l.sum) := by
  induction l with
  | nil => simp
  | cons a t ih =>
    have ha := h a (by simp)
    have ht := ih (fun x hx => h x (by simp [hx]))
    have htnn : 0 ≤ t.sum :=
      List.sum_nonneg (fun x hx => le_of_lt (h x (by simp [hx])).1)
    constructor
    · simp only [List.sum_cons, List.length_cons]
      push_cast
      have := ht.1
      linarith
    · intro _
      simp only [List.sum_cons]
      linarith [ha.1]

/-- C9: get_kl_divergence assembles exactly 10 KL values (4 continuous
descriptor divergences, 5 discrete ones, 1 internal-similarity term), maps
each value v to exp(-v), and returns the arithmetic mean of the mapped
values; when every KL value is nonnegative the score lies in (0, 1]. -/
theorem kl_divergence_score_structure (o : KLOracle) (ts gen : List String)
    (h : ∀ v ∈ kldivValues o ts gen, 0 ≤ v) :
    (kldivValues o ts gen).length = 10 ∧
    get_kl_divergence o ts gen
      = ((kldivValues o ts gen).map (fun v => Real.exp (-v))).sum / 10 ∧
    0 < get_kl_divergence o ts gen ∧ get_kl_divergence o ts gen ≤ 1 := by
  have hlen : (kldivValues o ts gen).length = 10 := by
    simp [kldivValues]
  have hmaplen : ((kldivValues o ts gen).map (fun v => Real.exp (-v))).length = 10 := by
    rw [List.length_map, hlen]
  have hform : get_kl_divergence o ts gen
      = ((kldivValues o ts gen).map (fun v => Real.exp (-v))).sum / 10 := by
    rw [get_kl_divergence, hmaplen]
    norm_num
  have helts : ∀ x ∈ (kldivValues o ts gen).map (fun v => Real.exp (-v)),
      0 < x ∧ x ≤ 1 := by
    intro x hx
    obtain ⟨v, hv, rfl⟩ := List.mem_map.mp hx
    refine ⟨Real.exp_pos _, ?_⟩
    calc Real.exp (-v) ≤ Real.exp 0 := Real.exp_le_exp.mpr (by linarith [h v hv])
      _ = 1 := Real.exp_zero
  have hne : (kldivValues o ts gen).map (fun v => Real.exp (-v)) ≠ [] := by
    intro hc
    rw [hc] at hmaplen
    simp at hmaplen
  obtain ⟨hle, hpos⟩ := sum_exp_bounds _ helts
  refine ⟨hlen, hform, ?_, ?_⟩
  · rw [hform]
    exact div_pos (hpos hne) (by norm_num)
  · rw [hform]
    rw [div_le_one (by norm_num)]
    calc ((kldivValues o ts gen).map (fun v => Real.exp (-v))).sum
        ≤ (((kldivValues o ts gen).map (fun v => Real.exp (-v))).length : ℝ) := hle
      _ = 10 := by rw [hmaplen]; norm_num

/-- C9 witness: the score of the all-zero KL collaborators is in (0, 1]. -/
theorem kl_divergence_score_structure_witness :
    0 < get_kl_divergence klZero [] [] ∧ get_kl_divergence klZero [] [] ≤ 1 := by
  have h := kl_divergence_score_structure klZero [] [] ?_
  · exact ⟨h.2.2.1, h.2.2.2⟩
  · intro v hv
    simp [kldivValues, klZero] at hv
    rw [hv]

/-- C5: when the molecules carry bond information, the angle-distance pair
accumulated by compute_statistics is anglesBranch at the sparsity_level
returned by bond_types_distance; it equals the fixed sentinel
(0, [-1] * len(atom_decoder)) whenever sparsity_level < 0.7 (the
angle_distance collaborator is not consulted) and equals the
angle_distance result whenever 0.7 ≤ sparsity_level, so a sparsity level
of exactly 0.7 triggers the computation. -/
theorem angle_distance_sparsity_threshold (o : Oracle) (n : ℕ) (st : MetricsState)
    (m0 : GenMol) (rest : List GenMol) (hb : m0.bond_types.isSome) :
    ((compute_statistics o n st (m0 :: rest)).toOption.map (fun p => p.2.angles_w1))
      = some (st.angles_w1.update
          (anglesBranch o n (m0 :: rest)
            ((o.bond_types_distance (m0 :: rest)).2.2)).1 1) ∧
    ((o.bond_types_distance (m0 :: rest)).2.2 < 7/10 →
      anglesBranch o n (m0 :: rest) ((o.bond_types_distance (m0 :: rest)).2.2)
        = (0, List.replicate n (-1))) ∧
    (7/10 ≤ (o.bond_types_distance (m0 :: rest)).2.2 →
      anglesBranch o n (m0 :: rest) ((o.bond_types_distance (m0 :: rest)).2.2)
        = o.angle_distance (m0 :: rest)) := by
  obtain ⟨u, hu⟩ := Option.isSome_iff_exists.mp hb
  refine ⟨?_, fun hlt => by rw [anglesBranch, if_pos hlt],
    fun hge => by rw [anglesBranch, if_neg (not_lt.mpr hge)]⟩
  cases hc : m0.charges with
  | none =>
    simp only [compute_statistics, hu, hc, Option.isNone_some, Option.isNone_none,
      Except.toOption, Option.map_some, Option.some.injEq, if_true, if_false,
      Bool.false_eq_true, ite_false, ite_true]
    rfl
  | some c =>
    simp only [compute_statistics, hu, hc, Option.isNone_some, Option.isNone_none,
      Except.toOption, Option.map_some, Option.some.injEq, if_true, if_false,
      Bool.false_eq_true, ite_false, ite_true]
    rfl

/-- C5 witness: a sparsity level of exactly 0.7 computes the angle
distance instead of the sentinel. -/
theorem angle_distance_sparsity_threshold_witness :
    anglesBranch oracleSparsityBoundary 1 [molGood]
      ((oracleSparsityBoundary.bond_types_distance [molGood]).2.2)
      = oracleSparsityBoundary.angle_distance [molGood] := by
  have h := angle_distance_sparsity_threshold oracleSparsityBoundary 1
    initMetricsState molGood [] (by simp [molGood])
  exact h.2.2 (by norm_num [oracleSparsityBoundary, oracle0])

lemma evaluate_ok_spec (o : Oracle) (train : Option (List String)) (st : MetricsState)
    (g : List GenMol) (r : EvalResult) (st' : MetricsState)
    (h : evaluate o train st g = .ok (r, st')) :
    ∃ vr st1, compute_validity o true st g = .ok (vr, st1) ∧
      r.valid_mols = vr.valid_molecules ∧
      r.valid_smiles = vr.valid_smiles ∧
      r.validity = st1.validity_metric.compute ∧
      r.novelty_skip_notice = false ∧
      st'.validity_metric = st1.validity_metric ∧
      st'.novelty = (match train with
        | none => st1.novelty
        | some ts =>
          if 0 < vr.valid_smiles.length then
            st1.novelty.update
              (((vr.valid_smiles.dedup.filter (fun s => decide (s ∉ ts))).length : ℚ)
                / (vr.valid_smiles.dedup.length : ℚ)) (vr.valid_smiles.dedup.length : ℚ)
          else st1.novelty) ∧
      r.novelty = (if 0 < vr.valid_smiles.length
        then MetricValue.tensor st'.novelty.compute
        else MetricValue.int 0) := by
  unfold evaluate at h
  split at h
  · exact absurd h (by simp)
  · rename_i vr st1 heq
    refine ⟨vr, st1, heq, ?_⟩
    dsimp only at h
    by_cases hlen : 0 < vr.valid_smiles.length
    · rw [if_pos hlen] at h
      split at h
      · rename_i ts htr
        rw [Except.ok.injEq, Prod.mk.injEq] at h
        obtain ⟨hr, hst⟩ := h
        subst hst
        subst hr
        exact ⟨rfl, rfl, rfl, rfl, rfl, by simp [htr, hlen], by rw [if_pos hlen]⟩
      · rename_i htr
        rw [Except.ok.injEq, Prod.mk.injEq] at h
        obtain ⟨hr, hst⟩ := h
        subst hst
        subst hr
        exact ⟨rfl, rfl, rfl, rfl, rfl, by simp [htr, hlen], by rw [if_pos hlen]⟩
    · rw [if_neg hlen] at h
      rw [Except.ok.injEq, Prod.mk.injEq] at h
      obtain ⟨hr, hst⟩ := h
      subst hst
      subst hr
      refine ⟨rfl, rfl, rfl, rfl, rfl, ?_, by rw [if_neg hlen]⟩
      cases train <;> simp [hlen]

lemma validityStep_smiles_le (strict : Bool) (s : ValidityLoopState) (p : ℕ × GenMol) :
    (validityStep strict s p).valid_smiles.length ≤ s.valid_smiles.length + 1 := by
  cases hm : p.2.rdkit_mol with
  | none => simp [validityStep, hm]
  | some m =>
    simp only [validityStep, hm]
    split <;> simp

lemma validity_foldl_smiles_le (strict : Bool) :
    ∀ (l : List (ℕ × GenMol)) (s : ValidityLoopState),
      (l.foldl (validityStep strict) s).valid_smiles.length
        ≤ s.valid_smiles.length + l.length := by
  intro l
  induction l with
  | nil => intro s; simp
  | cons p t ih =>
    intro s
    rw [List.foldl_cons]
    calc (t.foldl (validityStep strict) (validityStep strict s p)).valid_smiles.length
        ≤ (validityStep strict s p).valid_smiles.length + t.length := ih _
      _ ≤ s.valid_smiles.length + 1 + t.length := by
          have := validityStep_smiles_le strict s p
          omega
      _ = s.valid_smiles.length + (p :: t).length := by simp; omega

lemma validCount_le_length (strict : Bool) (g : List GenMol) :
    validCount strict g ≤ g.length := by
  have h := validity_foldl_smiles_le strict g.enum ⟨[], [], [], [], []⟩
  simpa [validCount, validityLoop, List.enum_length] using h

/-- C4 (amended): from a freshly constructed or just-reset accumulator,
the validity reported by an evaluation call equals the number of molecules
that pass every validity check divided by the number of input molecules,
and that ratio lies in [0, 1]. -/
theorem validity_ratio_from_fresh_state (o : Oracle) (train : Option (List String))
    (g : List GenMol) (r : EvalResult) (st' : MetricsState)
    (hg : g ≠ [])
    (h : evaluate o train initMetricsState g = .ok (r, st')) :
    r.validity = some ((validCount true g : ℚ) / (g.length : ℚ)) ∧
    0 ≤ ((validCount true g : ℚ) / (g.length : ℚ)) ∧
    ((validCount true g : ℚ) / (g.length : ℚ)) ≤ 1 := by
  obtain ⟨vr, st1, hcv, -, -, hval, -, -, -, -⟩ := evaluate_ok_spec o train
    initMetricsState g r st' h
  obtain ⟨-, -, -, -, hst1⟩ := compute_validity_ok_spec o true initMetricsState
    g vr st1 hcv
  have hn : (g.length : ℚ) ≠ 0 := by
    have : g.length ≠ 0 := fun hc => hg (List.length_eq_zero.mp hc)
    exact_mod_cast this
  have hnpos : (0 : ℚ) < (g.length : ℚ) := by
    have : 0 < g.length := List.length_pos.mpr hg
    exact_mod_cast this
  have hcle : (validCount true g : ℚ) ≤ (g.length : ℚ) := by
    exact_mod_cast validCount_le_length true g
  refine ⟨?_, div_nonneg (by positivity) (le_of_lt hnpos), ?_⟩
  · rw [hval, hst1]
    simp only [initMetricsState, MeanMetricState.init, MeanMetricState.update,
      MeanMetricState.compute]
    rw [if_neg (by simpa using hn)]
    rw [zero_add, zero_add, div_mul_cancel₀ _ hn]
  · rw [div_le_one hnpos]
    exact hcle

lemma classify_molGood : classify true ⟨[[0]], 1, none, 0, [[0]], 0, "g"⟩
    = ErrCategory.passed := by
  norm_num [classify, bondOrderViolation]

lemma classify_molBad : classify true ⟨[[0]], 2, none, 0, [[0]], 0, "b"⟩
    = ErrCategory.disconnected := by
  norm_num [classify, bondOrderViolation]

lemma vloop_good : validityLoop true [molGood]
    = ⟨["g"], [0], [molGood], [1], [ErrCategory.passed]⟩ := by
  simp [validityLoop, validityStep, molGood, classify_molGood, List.enum,
    List.enumFrom]

lemma vloop_bad : validityLoop true [molBad]
    = ⟨[], [], [], [2], [ErrCategory.disconnected]⟩ := by
  simp [validityLoop, validityStep, molBad, classify_molBad, List.enum,
    List.enumFrom]

lemma cv_good : compute_validity oracle0 true initMetricsState [molGood]
    = .ok (⟨["g"], [molGood], 100, [ErrCategory.passed]⟩, stVGood) := by
  norm_num [compute_validity, vloop_good, oracle0, stVGood, initMetricsState,
    MeanMetricState.update, MeanMetricState.updateList, MeanMetricState.init,
    MaxMetricState.updateList, MaxMetricState.init, List.enum, List.enumFrom]
  decide

lemma cv_bad : compute_validity oracle0 true initMetricsState [molBad]
    = .ok (⟨[], [], 0, [ErrCategory.disconnected]⟩, stVBad) := by
  norm_num [compute_validity, vloop_bad, oracle0, stVBad, initMetricsState,
    MeanMetricState.update, MeanMetricState.updateList, MeanMetricState.init,
    MaxMetricState.updateList, MaxMetricState.init, List.enum, List.enumFrom]

lemma eval_good_emptyTrain : evaluate oracle0 (some []) initMetricsState [molGood]
    = .ok (⟨[molGood], ["g"], some 1, MetricValue.tensor (some 1),
           MetricValue.tensor (some 1), 100, false⟩, stEGood) := by
  rw [evaluate, cv_good]
  norm_num [stVGood, stEGood, initMetricsState, MeanMetricState.update,
    MeanMetricState.compute, MeanMetricState.init, List.dedup]

lemma stabilityStep_validity_metric (o : Oracle) (s : MetricsState) (m : GenMol) :
    (stabilityStep o s m).validity_metric = s.validity_metric := rfl

lemma stabilityLoop_validity_metric (o : Oracle) (mols : List GenMol) :
    ∀ st : MetricsState,
      (stabilityLoop o st mols).validity_metric = st.validity_metric := by
  induction mols with
  | nil => intro st; rfl
  | cons m t ih =>
    intro st
    simp only [stabilityLoop, List.foldl_cons]
    exact (ih (stabilityStep o st m)).trans (stabilityStep_validity_metric o st m)

lemma cv_good_gen (st : MetricsState) : compute_validity oracle0 true st [molGood]
    = .ok (⟨["g"], [molGood], 100, [ErrCategory.passed]⟩,
      { st with
        validity_metric := ⟨st.validity_metric.sum + 1, st.validity_metric.weight + 1⟩,
        mean_components := ⟨st.mean_components.sum + 1, st.mean_components.weight + 1⟩,
        max_components := st.max_components.updateList [1] }) := by
  norm_num [compute_validity, vloop_good, oracle0, MeanMetricState.update,
    MeanMetricState.updateList, List.enum, List.enumFrom]
  decide

lemma cv_bad_gen (st : MetricsState) : compute_validity oracle0 true st [molBad]
    = .ok (⟨[], [], 0, [ErrCategory.disconnected]⟩,
      { st with
        validity_metric := ⟨st.validity_metric.sum, st.validity_metric.weight + 1⟩,
        mean_components := ⟨st.mean_components.sum + 2, st.mean_components.weight + 1⟩,
        max_components := st.max_components.updateList [2] }) := by
  norm_num [compute_validity, vloop_bad, oracle0, MeanMetricState.update,
    MeanMetricState.updateList, List.enum, List.enumFrom]

lemma stab_bad : stabilityLoop oracle0 initMetricsState [molBad] = stS := by
  norm_num [stabilityLoop, stabilityStep, oracle0, molBad, initMetricsState, stS,
    MeanMetricState.update, MeanMetricState.init]

lemma eval_bad : evaluate oracle0 (some ["t"]) stS [molBad]
    = .ok (⟨[], [], some 0, MetricValue.int 0, MetricValue.int 0, 0, false⟩, stB) := by
  unfold evaluate
  rw [cv_bad_gen stS]
  norm_num [stS, stB, initMetricsState, MeanMetricState.init,
    MeanMetricState.compute, MaxMetricState.updateList, MaxMetricState.init]

lemma sanv_good : compute_sanitize_validity [molGood] = .ok 1 := by
  norm_num [compute_sanitize_validity, molGood, List.foldlM, Except.bind, bind,
    Except.pure, pure]

lemma sanv_bad : compute_sanitize_validity [molBad] = .ok 1 := by
  norm_num [compute_sanitize_validity, molBad, List.foldlM, Except.bind, bind,
    Except.pure, pure]

lemma call_bad : call oracle0 cfg0 initMetricsState [molBad] false
    = .ok (resBad, stB) := by
  unfold call
  rw [show cfg0.train_smiles = some ["t"] from rfl, stab_bad]
  dsimp only
  rw [eval_bad, sanv_bad]
  norm_num [stS, stB, resBad, initMetricsState, MeanMetricState.init,
    MeanMetricState.compute, MetricValue.toItem]

lemma stab_good2 : stabilityLoop oracle0 stB [molGood] = stS2 := by
  norm_num [stabilityLoop, stabilityStep, oracle0, molGood, stB, stS, stS2,
    initMetricsState, MeanMetricState.update, MeanMetricState.init]

lemma eval_good2 : evaluate oracle0 (some ["t"]) stS2 [molGood]
    = .ok (⟨[molGood], ["g"], some (1/2), MetricValue.tensor (some 1),
           MetricValue.tensor (some 1), 100, false⟩, stE2) := by
  unfold evaluate
  rw [cv_good_gen stS2]
  norm_num [stS2, stB, stS, stE2, initMetricsState, MeanMetricState.init,
    MeanMetricState.compute, MeanMetricState.update, MaxMetricState.updateList,
    List.dedup]
  decide

lemma stats_good2 : compute_statistics oracle0 1 stE2 [molGood]
    = .ok (slogZero,
      { stE2 with
        num_nodes_w1 := ⟨0, 1⟩
        atom_types_tv := ⟨0, 1⟩
        edge_types_tv := ⟨0, 1⟩
        charge_w1 := ⟨0, 1⟩
        valency_w1 := ⟨0, 1⟩
        bond_lengths_w1 := ⟨0, 1⟩
        angles_w1 := ⟨0, 1⟩
        dihedrals_w1 := ⟨0, 1⟩ }) := by
  norm_num [compute_statistics, anglesBranch, oracle0, molGood, slogZero, stE2,
    stS2, stB, stS, initMetricsState, MeanMetricState.init, MeanMetricState.update,
    MeanMetricState.compute]

lemma call_good2 : call oracle0 cfg0 stB [molGood] false
    = .ok (res2, initMetricsState) := by
  unfold call
  rw [show cfg0.train_smiles = some ["t"] from rfl, stab_good2]
  dsimp only
  rw [eval_good2, sanv_good]
  dsimp only
  rw [show cfg0.n_atom_types = 1 from rfl, stats_good2]
  norm_num [res2, slogZero, MetricValue.toItem, cfg0, oracle0,
    get_bulk_similarity_with_train, bulk_similarity_core, get_bulk_diversity,
    get_kl_divergence_q, kldivValuesQ, descriptorColumn, npMean, npMaxRow,
    List.range_succ, stS2, stB, stS, stE2, initMetricsState,
    MeanMetricState.init, MeanMetricState.compute]

/-- C2 (amended): the evaluation path computes novelty inline and never
emits the degraded-mode notice.  (a) With a present-but-empty training
set, evaluate on a fresh instance reports novelty 1 (a tensor through the
accumulator — every unique SMILES is novel) without raising and without
emitting the notice; (b) the int value 1 together with the notice exists
only in the standalone compute_novelty helper, which the evaluation path
does not call; (c) with the training set absent (None), evaluate performs
no novelty update at all and still emits no notice. -/
theorem novelty_degraded_mode_behavior :
    (∀ (o : Oracle) (g : List GenMol) (r : EvalResult) (st' : MetricsState),
      evaluate o (some []) initMetricsState g = .ok (r, st') →
      r.valid_smiles ≠ [] →
      r.novelty = MetricValue.tensor (some 1) ∧ r.novelty_skip_notice = false) ∧
    (∀ us : List String,
      compute_novelty none us = .ok (Sum.inr 1, MetricValue.int 1, true)) ∧
    (∀ (o : Oracle) (st : MetricsState) (g : List GenMol) (r : EvalResult)
        (st' : MetricsState),
      evaluate o none st g = .ok (r, st') →
      st'.novelty = st.novelty ∧ r.novelty_skip_notice = false) := by
  refine ⟨?_, fun us => rfl, ?_⟩
  · intro o g r st' h hns
    obtain ⟨vr, st1, hcv, hvm, hvs, hval, hnot, hvalm, hnovst, hnovr⟩ :=
      evaluate_ok_spec o (some []) initMetricsState g r st' h
    obtain ⟨-, -, -, -, hst1⟩ := compute_validity_ok_spec _ _ _ _ _ _ hcv
    have hvs' : vr.valid_smiles ≠ [] := by rw [← hvs]; exact hns
    have hlen : 0 < vr.valid_smiles.length := List.length_pos.mpr hvs'
    have hu : (vr.valid_smiles.dedup.length : ℚ) ≠ 0 := by
      have h1 : vr.valid_smiles.dedup ≠ [] := by
        intro hc
        exact hvs' ((List.dedup_eq_nil _).mp hc)
      have h2 : vr.valid_smiles.dedup.length ≠ 0 :=
        fun hc => h1 (List.length_eq_zero.mp hc)
      exact_mod_cast h2
    have hfilter : vr.valid_smiles.dedup.filter
        (fun s => decide (s ∉ ([] : List String))) = vr.valid_smiles.dedup :=
      List.filter_eq_self.mpr (fun a _ => by simp)
    refine ⟨?_, hnot⟩
    rw [hnovr, if_pos hlen]
    have hnov : st'.novelty = MeanMetricState.update ⟨0, 0⟩
        ((vr.valid_smiles.dedup.length : ℚ) / (vr.valid_smiles.dedup.length : ℚ))
        (vr.valid_smiles.dedup.length : ℚ) := by
      rw [hnovst]
      dsimp only
      rw [if_pos hlen, hfilter, hst1]
      rfl
    rw [hnov]
    simp only [MeanMetricState.update, MeanMetricState.compute, div_self hu,
      one_mul, zero_add]
    rw [if_neg hu]
  · intro o st g r st' h
    obtain ⟨vr, st1, hcv, -, -, -, hnot, -, hnovst, -⟩ :=
      evaluate_ok_spec o none st g r st' h
    obtain ⟨-, -, -, -, hst1⟩ := compute_validity_ok_spec _ _ _ _ _ _ hcv
    refine ⟨?_, hnot⟩
    rw [hnovst, hst1]

/-- C2 counterexample: a concrete evaluation with a present-but-empty
training set reports novelty 1 without any exception, yet the
degraded-mode notice is NOT emitted (the claim requires it). -/
theorem no_degraded_notice_on_empty_train :
    (evaluate oracle0 (some []) initMetricsState [molGood]).toOption.map
      (fun p => (p.1.novelty, p.1.novelty_skip_notice))
      = some (MetricValue.tensor (some 1), false) := by
  rw [eval_good_emptyTrain]
  rfl

/-- C2 witness: the degraded-mode helper and the inline novelty value at
concrete inputs. -/
theorem novelty_degraded_mode_behavior_witness :
    compute_novelty none [] = .ok (Sum.inr 1, MetricValue.int 1, true) ∧
    (evaluate oracle0 (some []) initMetricsState [molGood]).toOption.map
      (fun p => p.1.novelty) = some (MetricValue.tensor (some 1)) := by
  constructor
  · exact novelty_degraded_mode_behavior.2.1 []
  · have h := novelty_degraded_mode_behavior.1 oracle0 [molGood] _ _
      eval_good_emptyTrain (by simp)
    rw [eval_good_emptyTrain]
    exact congrArg some h.1

/-- C4 witness: on a fresh instance, the reported validity of a singleton
batch is its own ratio, inside [0, 1]. -/
theorem validity_ratio_from_fresh_state_witness :
    (evaluate oracle0 (some []) initMetricsState [molGood]).toOption.map
      (fun p => p.1.validity)
      = some (some ((validCount true [molGood] : ℚ)
          / (([molGood] : List GenMol).length : ℚ))) ∧
    0 ≤ ((validCount true [molGood] : ℚ) / (([molGood] : List GenMol).length : ℚ)) ∧
    ((validCount true [molGood] : ℚ) / (([molGood] : List GenMol).length : ℚ)) ≤ 1 := by
  have h := validity_ratio_from_fresh_state oracle0 (some []) [molGood] _ _
    (by simp) eval_good_emptyTrain
  refine ⟨?_, h.2.1, h.2.2⟩
  rw [eval_good_emptyTrain]
  exact congrArg some h.1

/-- C4 counterexample: after a call whose batch had no valid molecule (so
no reset happened), a second call on the same instance reports validity
1/2 for a batch whose own ratio is 1/1: the reported value depends on the
earlier batch. -/
theorem validity_depends_on_previous_batch :
    (call oracle0 cfg0 initMetricsState [molBad] false).toOption.map Prod.snd
      = some stB ∧
    (call oracle0 cfg0 stB [molGood] false).toOption.map
      (fun p => p.1.validity_dict.validity) = some (some (1/2)) ∧
    validCount true [molGood] = 1 ∧ ([molGood] : List GenMol).length = 1 ∧
    ((1 : ℚ)/2) ≠ 1 / 1 := by
  refine ⟨by rw [call_bad]; rfl, by rw [call_good2]; rfl, ?_, rfl, by norm_num⟩
  rw [validCount, vloop_good]
  rfl

/-- C1 (amended): __call__ resets the accumulators exactly when the batch
produced at least one valid molecule (statistics_dict non-empty); when no
molecule is valid the accumulators are left in place and the validity
weight has grown by the batch size, so later calls aggregate across
batches. -/
theorem reset_after_call_iff_valid (o : Oracle) (cfg : BMMConfig)
    (st : MetricsState) (mols : List GenMol) (ret : Bool)
    (r : CallResult) (st' : MetricsState)
    (h : call o cfg st mols ret = .ok (r, st')) :
    (r.statistics_dict.isSome → st' = initMetricsState) ∧
    (r.statistics_dict = none →
      st'.validity_metric.weight
        = st.validity_metric.weight + (mols.length : ℚ)) := by
  unfold call at h
  dsimp only at h
  rcases heval : evaluate o cfg.train_smiles (stabilityLoop o st mols) mols
    with e | ⟨er, st2⟩
  · rw [heval] at h
    simp at h
  · rw [heval] at h
    dsimp only at h
    rcases hsv : compute_sanitize_validity mols with e | sv
    · rw [hsv] at h
      simp at h
    · rw [hsv] at h
      dsimp only at h
      by_cases hvm : 0 < er.valid_mols.length
      · rw [if_pos hvm] at h
        rcases hcs : compute_statistics o cfg.n_atom_types st2 er.valid_mols
          with e | ⟨slog, st3⟩
        · rw [hcs] at h
          simp at h
        · rw [hcs] at h
          dsimp only at h
          rcases hts : cfg.train_smiles with _ | ts
          · rw [hts] at h
            simp at h
          · rw [hts] at h
            dsimp only at h
            cases ret with
            | true =>
              rw [if_pos rfl] at h
              rw [Except.ok.injEq, Prod.mk.injEq] at h
              obtain ⟨hr, hst⟩ := h
              subst hst
              subst hr
              exact ⟨fun _ => rfl, fun hnone => absurd hnone (by simp)⟩
            | false =>
              rw [if_neg (by simp)] at h
              rw [Except.ok.injEq, Prod.mk.injEq] at h
              obtain ⟨hr, hst⟩ := h
              subst hst
              subst hr
              exact ⟨fun _ => rfl, fun hnone => absurd hnone (by simp)⟩
      · rw [if_neg hvm] at h
        rw [Except.ok.injEq, Prod.mk.injEq] at h
        obtain ⟨hr, hst⟩ := h
        subst hst
        subst hr
        refine ⟨fun hsome => absurd hsome (by simp), fun _ => ?_⟩
        obtain ⟨vr, st1, hcv, -, -, -, -, hvalm, -, -⟩ :=
          evaluate_ok_spec o cfg.train_smiles (stabilityLoop o st mols) mols
            er st2 heval
        obtain ⟨-, -, -, -, hst1⟩ := compute_validity_ok_spec _ _ _ _ _ _ hcv
        rw [hvalm, hst1]
        simp only [MeanMetricState.update]
        rw [stabilityLoop_validity_metric o mols st]

/-- C1 counterexample: a call whose only molecule is disconnected returns
without resetting: the validity accumulator still carries weight 1. -/
theorem reset_not_called_on_invalid_batch :
    (call oracle0 cfg0 initMetricsState [molBad] false).toOption.map Prod.snd
      ≠ some initMetricsState := by
  rw [call_bad]
  intro hc
  norm_num [Except.toOption, stB, stS, initMetricsState, MeanMetricState.init,
    MaxMetricState.init] at hc

/-- C1 witness: a call that does produce a valid molecule (even from a
leaked state) resets every accumulator back to the initial state. -/
theorem reset_after_call_iff_valid_witness :
    (call oracle0 cfg0 stB [molGood] false).toOption.map Prod.snd
      = some initMetricsState := by
  have h := reset_after_call_iff_valid oracle0 cfg0 stB [molGood] false
    res2 initMetricsState call_good2
  rw [call_good2]
  exact congrArg some (h.1 (by norm_num [res2]))

end PILOT


